import Mathlib

/-
Shallow embedding of the region-name normalization and regional-aggregation
logic of the India cancer-mortality dashboard (src/app.py), together with
proofs of the specified properties.

The dashboard stores its table in wide format: one row per state, one value
column per year.  A row is modelled as a state name plus an association list
from year to an optional value; a pandas NaN cell is `none`.
-/

namespace CancerDashboard

/-- Whitespace characters removed by Python's `str.strip()` (`load_data`,
src/app.py line 95). -/
def isWS (c : Char) : Bool :=
  c == ' ' || c == '\t' || c == '\n' || c == '\r' || c == '\x0b' || c == '\x0c'

/-- Python `str.strip()` on a character list: drop the maximal whitespace
prefix and suffix. -/
def stripChars (l : List Char) : List Char :=
  (((l.dropWhile isWS).reverse.dropWhile isWS)).reverse

/-- One fuel-indexed step of literal (non-regex) substring replacement,
mirroring Python `str.replace`: scan left to right, replacing each
non-overlapping occurrence of `pat` by `repl`. -/
def replaceAux (pat repl : List Char) : Nat → List Char → List Char
  | _, [] => []
  | 0, l => l
  | fuel + 1, c :: rest =>
    if pat.isPrefixOf (c :: rest) && !pat.isEmpty then
      repl ++ replaceAux pat repl fuel ((c :: rest).drop pat.length)
    else
      c :: replaceAux pat repl fuel rest

/-- Literal substring replacement; each replacement step consumes at least one
input character, so the input length is enough fuel. -/
def replaceList (pat repl l : List Char) : List Char :=
  replaceAux pat repl l.length l

/-- The state-name cleaning performed by `load_data` (src/app.py lines 95-96):
strip surrounding whitespace, then replace the literal "Telangana " by
"Telangana". -/
def clean_state (s : String) : String :=
  ⟨replaceList "Telangana ".data "Telangana".data (stripChars s.data)⟩

/-- The alias table `state_mapping` of `prepare_map_data`
(src/app.py lines 109-148). -/
def state_mapping : List (String × String) :=
  [("Andhra Pradesh", "Andhra Pradesh"),
   ("Arunachal Pradesh", "Arunachal Pradesh"),
   ("Assam", "Assam"),
   ("Bihar", "Bihar"),
   ("Chhattisgarh", "Chhattisgarh"),
   ("Goa", "Goa"),
   ("Gujarat", "Gujarat"),
   ("Haryana", "Haryana"),
   ("Himachal Pradesh", "Himachal Pradesh"),
   ("Jharkhand", "Jharkhand"),
   ("Karnataka", "Karnataka"),
   ("Kerala", "Kerala"),
   ("Madhya Pradesh", "Madhya Pradesh"),
   ("Maharashtra", "Maharashtra"),
   ("Manipur", "Manipur"),
   ("Meghalaya", "Meghalaya"),
   ("Mizoram", "Mizoram"),
   ("Nagaland", "Nagaland"),
   ("Orissa", "Odisha"),
   ("Punjab", "Punjab"),
   ("Rajasthan", "Rajasthan"),
   ("Sikkim", "Sikkim"),
   ("Tamil Nadu", "Tamil Nadu"),
   ("Telangana", "Telangana"),
   ("Tripura", "Tripura"),
   ("Uttar Pradesh", "Uttar Pradesh"),
   ("Uttaranchal", "Uttarakhand"),
   ("West Bengal", "West Bengal"),
   ("Delhi", "Delhi"),
   ("Jammu & Kashmir", "Jammu & Kashmir"),
   ("Jammu and Kashmir", "Jammu & Kashmir"),
   ("Chandigarh", "Chandigarh"),
   ("Dadra & Nagar Haveli", "Dadra and Nagar Haveli and Daman and Diu"),
   ("Daman", "Dadra and Nagar Haveli and Daman and Diu"),
   ("Lakshadweep", "Lakshadweep"),
   ("Pondicherry", "Puducherry"),
   ("Andaman & Nicobar Islands", "Andaman & Nicobar")]

/-- Alias-table lookup with pass-through fallback: `df['State'].map(state_mapping)`
followed by filling unmapped entries with the original name
(src/app.py lines 152-158). -/
def canonicalize (name : String) : String :=
  (state_mapping.lookup name).getD name

/-- The full per-name normalization pipeline: the cleaning done at load time
followed by the alias lookup with pass-through. -/
def normalizeName (s : String) : String :=
  canonicalize (clean_state s)

/-- Boolean test: is `pat` an infix (contiguous sublist) of the list? -/
def hasInfix (pat : List Char) : List Char → Bool
  | [] => pat.isEmpty
  | c :: rest => pat.isPrefixOf (c :: rest) || hasInfix pat rest

/-- Case-insensitive substring containment, mirroring pandas
`Series.str.contains(pat, case=False)` for a pattern without regex
metacharacters. -/
def containsCI (pat s : String) : Bool :=
  hasInfix (pat.data.map Char.toLower) (s.data.map Char.toLower)

/-- The split-territory detection `str.contains('Jammu', case=False)`
(src/app.py lines 170 and 184). -/
def containsJammu (s : String) : Bool :=
  containsCI "Jammu" s

/-- One row of the wide-format dataframe produced by `load_data`: a state name
and, per year, an optional value (pandas NaN is `none`). -/
structure Row where
  state : String
  values : List (Nat × Option Int)
deriving Repr, DecidableEq

/-- The value of a row for a given year column; `none` when the column is
absent or holds NaN. -/
def Row.value (r : Row) (y : Nat) : Option Int :=
  (r.values.lookup y).join

/-- One row of the `map_data` frame built by `prepare_map_data`
(src/app.py lines 161-166). -/
structure MapRecord where
  state : String
  original_state : String
  deaths : Option Int
  year : Nat
deriving Repr, DecidableEq

/-- The base `map_data` frame (src/app.py lines 161-166): one record per input
row, with the mapped state name, the original name, and the value of the
requested year column. -/
def base_map_data (rows : List Row) (y : Nat) : List MapRecord :=
  rows.map (fun r => ⟨canonicalize r.state, r.state, r.value y, y⟩)

/-- The two replicated records emitted for the split territory
(src/app.py lines 176-181). -/
def jkPair (d : Option Int) (y : Nat) : List MapRecord :=
  [⟨"Jammu & Kashmir", "Jammu & Kashmir", d, y⟩,
   ⟨"Ladakh", "Jammu & Kashmir (Ladakh area)", d, y⟩]

/-- The special split-territory handling (src/app.py lines 168-185): when some
input row's state contains "Jammu" (case-insensitively), remove every record
whose original name contains "Jammu" and append the two replicated records,
both carrying the first matching row's value. -/
def splitJK (base : List MapRecord) (jk : List Row) (y : Nat) : List MapRecord :=
  match jk with
  | [] => base
  | r :: _ =>
    base.filter (fun m => !containsJammu m.original_state) ++ jkPair (r.value y) y

/-- `prepare_map_data` (src/app.py lines 104-190): build the base frame, apply
the split-territory handling, then drop rows whose value is NaN
(line 188). -/
def prepare_map_data (rows : List Row) (y : Nat) : List MapRecord :=
  (splitJK (base_map_data rows y)
    (rows.filter (fun r => containsJammu r.state)) y).filter
    (fun m => m.deaths.isSome)

/-- `prepare_map_data` with the one genuinely partial operation modelled as
fallible: `jk_row[str(year)].iloc[0]` (src/app.py line 172) fails on an empty
frame, so it is rendered as `List.head?`; the surrounding emptiness guard
(line 171) is kept as in the source. -/
def prepare_map_dataE (rows : List Row) (y : Nat) : Option (List MapRecord) :=
  let base := base_map_data rows y
  let jk := rows.filter (fun r => containsJammu r.state)
  let withSplit :=
    if jk.isEmpty then
      some base
    else
      jk.head?.map (fun r =>
        base.filter (fun m => !containsJammu m.original_state) ++ jkPair (r.value y) y)
  withSplit.map (fun l => l.filter (fun m => m.deaths.isSome))

/-- Zone total as the code computes it
(`df[df['State'].isin(states)][str(year)].sum()`, src/app.py line 577):
restrict the frame to rows whose state is in the member list, take the
requested year column, and sum it with NaN cells skipped. -/
def zoneTotal (rows : List Row) (members : List String) (y : Nat) : Int :=
  (((rows.filter (fun r => members.contains r.state)).filterMap
    (fun r => r.value y))).sum

/-- The zone table of `create_regional_analysis` (src/app.py lines 567-573). -/
def regions : List (String × List String) :=
  [("North India", ["Punjab", "Haryana", "Himachal Pradesh", "Uttaranchal",
      "Uttar Pradesh", "Delhi", "Jammu & Kashmir", "Chandigarh"]),
   ("South India", ["Karnataka", "Tamil Nadu", "Andhra Pradesh", "Telangana",
      "Kerala", "Goa"]),
   ("East India", ["West Bengal", "Orissa", "Bihar", "Jharkhand", "Assam",
      "Tripura", "Meghalaya", "Manipur", "Mizoram", "Nagaland",
      "Arunachal Pradesh", "Sikkim"]),
   ("West India", ["Maharashtra", "Gujarat", "Rajasthan", "Madhya Pradesh",
      "Chhattisgarh", "Daman", "Dadra & Nagar Haveli"]),
   ("Islands & Others", ["Lakshadweep", "Andaman & Nicobar Islands",
      "Pondicherry"])]

/-- The per-zone aggregation of `create_regional_analysis`
(src/app.py lines 575-578). -/
def create_regional_analysis (rows : List Row) (y : Nat) : List (String × Int) :=
  regions.map (fun z => (z.1, zoneTotal rows z.2 y))

/-- `north_states` of `generate_insights` (src/app.py line 547). -/
def north_states : List String :=
  ["Punjab", "Haryana", "Himachal Pradesh", "Uttaranchal", "Uttar Pradesh",
   "Delhi", "Jammu & Kashmir", "Chandigarh"]

/-- `south_states` of `generate_insights` (src/app.py line 548). -/
def south_states : List String :=
  ["Karnataka", "Tamil Nadu", "Andhra Pradesh", "Telangana", "Kerala", "Goa"]

/-- `east_states` of `generate_insights` (src/app.py line 549). -/
def east_states : List String :=
  ["West Bengal", "Orissa", "Bihar", "Jharkhand", "Assam"]

/-- `west_states` of `generate_insights` (src/app.py line 550). -/
def west_states : List String :=
  ["Maharashtra", "Gujarat", "Rajasthan", "Madhya Pradesh", "Chhattisgarh"]

/-- The zone member lists used by `generate_insights`, with the zone names
they are summed under (src/app.py lines 547-556). -/
def insight_zone_members : List (String × List String) :=
  [("North India", north_states), ("South India", south_states),
   ("East India", east_states), ("West India", west_states)]

/-- The `regional_data` mapping built by `generate_insights`
(src/app.py lines 552-557), in its insertion order. -/
def regional_data (rows : List Row) (y : Nat) : List (String × Int) :=
  insight_zone_members.map (fun z => (z.1, zoneTotal rows z.2 y))

/-- One comparison step of Python `max(d, key=d.get)`: the current best is
replaced only when the new item's value is strictly greater, so the first
maximal item wins ties. -/
def maxStep (best p : String × Int) : String × Int :=
  if p.2 > best.2 then p else best

/-- Python `max(regional_data, key=regional_data.get)`
(src/app.py line 559), returning the whole key-value pair. -/
def maxByFirst : List (String × Int) → Option (String × Int)
  | [] => none
  | x :: xs => some (xs.foldl maxStep x)

/-- The highest-total zone reported by `generate_insights`
(src/app.py lines 559-560). -/
def highest_region (rows : List Row) (y : Nat) : Option String :=
  (maxByFirst (regional_data rows y)).map Prod.fst

/-- A long-format record: one (region, period, value) measurement. -/
structure LongRecord where
  region : String
  period : Nat
  value : Int
deriving Repr, DecidableEq

/-- Expansion of a wide-format row into long-format records, one per present
(non-NaN) year cell. -/
def Row.toLong (r : Row) : List LongRecord :=
  r.values.filterMap (fun p => p.2.map (fun v => LongRecord.mk r.state p.1 v))

/-- Long-format expansion of a whole table. -/
def toLong (rows : List Row) : List LongRecord :=
  rows.flatMap Row.toLong

/-- Modelled from the spec: the Regional Aggregator contract of spec §4.2,
"for each zone, sum the value of every record whose region is in that zone's
member set and whose period equals the requested period". -/
def zoneTotalSpec (recs : List LongRecord) (members : List String) (y : Nat) : Int :=
  ((recs.filter (fun q => members.contains q.region && q.period == y)).map
    (fun q => q.value)).sum

/-- C2: an input record whose (trimmed) region name is a key of the alias
table is mapped to the table's canonical id; a name absent from the table is
passed through unchanged as its own canonical id, and in either case the
record is not dropped by the mapping stage — every input row yields its
record in the base map data. -/
theorem alias_lookup_passthrough_total (name v : String) (rows : List Row)
    (y : Nat) (r : Row) (hr : r ∈ rows) :
    (state_mapping.lookup name = some v → canonicalize name = v) ∧
    (state_mapping.lookup name = none → canonicalize name = name) ∧
    (⟨canonicalize r.state, r.state, r.value y, y⟩ : MapRecord) ∈ base_map_data rows y := by
  refine ⟨fun h => by simp [canonicalize, h], fun h => by simp [canonicalize, h], ?_⟩
  exact List.mem_map_of_mem _ hr

/-- Witness for C2 at the spec's examples: "Orissa" maps to "Odisha", the
unknown "Unknown Territory" passes through, and the "Orissa" row survives as
a record of the base map data. -/
theorem alias_lookup_passthrough_total_witness :
    canonicalize "Orissa" = "Odisha" ∧
    canonicalize "Unknown Territory" = "Unknown Territory" ∧
    (⟨canonicalize "Orissa", "Orissa",
      Row.value ⟨"Orissa", [(2024, some 5)]⟩ 2024, 2024⟩ : MapRecord) ∈
      base_map_data [⟨"Orissa", [(2024, some 5)]⟩] 2024 :=
  ⟨(alias_lookup_passthrough_total "Orissa" "Odisha"
      [⟨"Orissa", [(2024, some 5)]⟩] 2024 ⟨"Orissa", [(2024, some 5)]⟩
      (by simp)).1 (by decide),
   (alias_lookup_passthrough_total "Unknown Territory" "Unknown Territory"
      [⟨"Orissa", [(2024, some 5)]⟩] 2024 ⟨"Orissa", [(2024, some 5)]⟩
      (by simp)).2.1 (by decide),
   (alias_lookup_passthrough_total "Orissa" "Odisha"
      [⟨"Orissa", [(2024, some 5)]⟩] 2024 ⟨"Orissa", [(2024, some 5)]⟩
      (by simp)).2.2⟩

/-- C6: for every region name that is a key of the alias table, the alias
lookup with pass-through fallback is idempotent — applying it to the
canonical id it produces yields that canonical id again. -/
theorem canonicalize_idempotent_on_keys (name : String)
    (h : name ∈ state_mapping.map Prod.fst) :
    canonicalize (canonicalize name) = canonicalize name := by
  fin_cases h <;> decide

/-- Witness for C6 at the key "Orissa". -/
theorem canonicalize_idempotent_on_keys_witness :
    "Orissa" ∈ state_mapping.map Prod.fst ∧
    canonicalize (canonicalize "Orissa") = canonicalize "Orissa" :=
  ⟨by decide, canonicalize_idempotent_on_keys "Orissa" (by decide)⟩

/-- C8: the normalization pass never fails.  The only partial operation in
`prepare_map_data` — taking the first row of the frame of "Jammu" matches —
is modelled as a fallible step in `prepare_map_dataE`, and for every input
the fallible normalizer succeeds and agrees with the total one: unmappable
names are passed through and missing values are omitted, never errored. -/
theorem prepare_map_data_never_fails (rows : List Row) (y : Nat) :
    prepare_map_dataE rows y = some (prepare_map_data rows y) := by
  cases h : rows.filter (fun r => containsJammu r.state) with
  | nil => simp [prepare_map_dataE, prepare_map_data, splitJK, h]
  | cons r rest => simp [prepare_map_dataE, prepare_map_data, splitJK, h]

/-- C10: every zone name defined by both `generate_insights` and
`create_regional_analysis` has an insight member list that is a subset of the
chart's member list; for "East India" and "West India" the inclusion is
strict; `generate_insights` omits the "Islands & Others" zone entirely; and
on concrete data (a single "Tripura" row) the two aggregations report
different totals for the same zone name, period and data. -/
theorem insight_zones_subset_of_analysis_zones :
    (∀ p ∈ insight_zone_members, ∀ q ∈ regions, p.1 = q.1 → p.2 ⊆ q.2) ∧
    (∀ p ∈ insight_zone_members, ∀ q ∈ regions,
      (p.1 = "East India" ∨ p.1 = "West India") → p.1 = q.1 →
        ∃ s ∈ q.2, s ∉ p.2) ∧
    "Islands & Others" ∉ insight_zone_members.map Prod.fst ∧
    List.lookup "East India" (regional_data [⟨"Tripura", [(2020, some 10)]⟩] 2020) ≠
      List.lookup "East India"
        (create_regional_analysis [⟨"Tripura", [(2020, some 10)]⟩] 2020) := by
  decide

/-- Folding `maxStep` over a list either keeps the initial best (when nothing
beats it) or lands on an element strictly greater than the initial best that
no element matches earlier and no element exceeds. -/
lemma foldl_maxStep_spec (xs : List (String × Int)) (b : String × Int) :
    (xs.foldl maxStep b = b ∧ ∀ q ∈ xs, q.2 ≤ b.2) ∨
    (∃ xs₁ r xs₂, xs = xs₁ ++ r :: xs₂ ∧ xs.foldl maxStep b = r ∧ b.2 < r.2 ∧
      (∀ q ∈ xs₁, q.2 < r.2) ∧ (∀ q ∈ xs, q.2 ≤ r.2)) := by
  induction xs generalizing b with
  | nil => exact Or.inl ⟨rfl, by simp⟩
  | cons q xs ih =>
    by_cases hq : q.2 > b.2
    · have hstep : maxStep b q = q := by simp [maxStep, hq]
      rcases ih q with ⟨heq, hall⟩ | ⟨xs₁, r, xs₂, hsplit, heq, hlt, hpre, hall⟩
      · refine Or.inr ⟨[], q, xs, by simp, ?_, hq, by simp, ?_⟩
        · simpa [List.foldl_cons, hstep] using heq
        · intro p hp
          rcases List.mem_cons.mp hp with h | h
          · exact h ▸ le_refl _
          · exact hall p h
      · refine Or.inr ⟨q :: xs₁, r, xs₂, by simp [hsplit], ?_, lt_trans hq hlt, ?_, ?_⟩
        · simpa [List.foldl_cons, hstep] using heq
        · intro p hp
          rcases List.mem_cons.mp hp with h | h
          · exact h ▸ hlt
          · exact hpre p h
        · intro p hp
          rcases List.mem_cons.mp hp with h | h
          · exact h ▸ le_of_lt hlt
          · exact hall p h
    · have hstep : maxStep b q = b := by simp [maxStep, hq]
      push_neg at hq
      rcases ih b with ⟨heq, hall⟩ | ⟨xs₁, r, xs₂, hsplit, heq, hlt, hpre, hall⟩
      · refine Or.inl ⟨by simpa [List.foldl_cons, hstep] using heq, ?_⟩
        intro p hp
        rcases List.mem_cons.mp hp with h | h
        · exact h ▸ hq
        · exact hall p h
      · refine Or.inr ⟨q :: xs₁, r, xs₂, by simp [hsplit], ?_, hlt, ?_, ?_⟩
        · simpa [List.foldl_cons, hstep] using heq
        · intro p hp
          rcases List.mem_cons.mp hp with h | h
          · exact h ▸ lt_of_le_of_lt hq hlt
          · exact hpre p h
        · intro p hp
          rcases List.mem_cons.mp hp with h | h
          · exact h ▸ le_of_lt (lt_of_le_of_lt hq hlt)
          · exact hall p h

/-- C5: on every non-empty zone-total mapping, the highest-zone resolution
(Python `max` with a value key, modelled by `maxByFirst`) returns the first
entry, in iteration order, whose total equals the maximum: every entry is
bounded by the result and every entry strictly before the result is strictly
smaller. -/
theorem maxByFirst_first_max (l : List (String × Int)) (x : String × Int)
    (xs : List (String × Int)) (h : l = x :: xs) :
    ∃ l₁ p l₂, l = l₁ ++ p :: l₂ ∧ maxByFirst l = some p ∧
      (∀ q ∈ l, q.2 ≤ p.2) ∧ ∀ q ∈ l₁, q.2 < p.2 := by
  subst h
  rcases foldl_maxStep_spec xs x with ⟨heq, hall⟩ | ⟨xs₁, r, xs₂, hsplit, heq, hlt, hpre, hall⟩
  · refine ⟨[], x, xs, by simp, by simp [maxByFirst, heq], ?_, by simp⟩
    intro q hq
    rcases List.mem_cons.mp hq with h | h
    · exact h ▸ le_refl _
    · exact hall q h
  · refine ⟨x :: xs₁, r, xs₂, by simp [hsplit], by simp [maxByFirst, heq], ?_, ?_⟩
    · intro q hq
      rcases List.mem_cons.mp hq with h | h
      · exact h ▸ le_of_lt hlt
      · exact hall q (hsplit ▸ h)
    · intro q hq
      rcases List.mem_cons.mp hq with h | h
      · exact h ▸ hlt
      · exact hpre q h

/-- Witness for C5 on a concrete tie: two zones share the maximum 5 and the
first one wins. -/
theorem maxByFirst_first_max_witness :
    ∃ l₁ p l₂, ([("North India", 5), ("South India", 5), ("East India", 3)] :
        List (String × Int)) = l₁ ++ p :: l₂ ∧
      maxByFirst [("North India", 5), ("South India", 5), ("East India", 3)] = some p ∧
      (∀ q ∈ ([("North India", 5), ("South India", 5), ("East India", 3)] :
        List (String × Int)), q.2 ≤ p.2) ∧ ∀ q ∈ l₁, q.2 < p.2 :=
  maxByFirst_first_max _ ("North India", 5) [("South India", 5), ("East India", 3)] rfl

/-- C3: a record whose value is absent (or not a number) for the requested
period is excluded rather than zero-filled: every record of the normalizer's
output carries a present value, and deleting an absent-valued row from the
table leaves every zone total unchanged — the row contributes nothing. -/
theorem missing_value_excluded (rows rows₁ rows₂ : List Row) (r : Row) (y : Nat)
    (members : List String) (hr : r.value y = none) :
    (∀ m ∈ prepare_map_data rows y, m.deaths.isSome = true) ∧
    zoneTotal (rows₁ ++ r :: rows₂) members y = zoneTotal (rows₁ ++ rows₂) members y := by
  constructor
  · intro m hm
    exact (List.mem_filter.mp hm).2
  · unfold zoneTotal
    rw [List.filter_append, List.filter_append, List.filter_cons]
    by_cases hc : members.contains r.state = true
    · rw [if_pos hc, List.filterMap_append, List.filterMap_append,
        List.filterMap_cons, hr]
    · rw [if_neg hc]

/-- Witness for C3: a "Foo" row with a NaN 2024 cell yields no output record
with an absent value, and removing it does not change the South-zone total of
a Karnataka row. -/
theorem missing_value_excluded_witness :
    (∀ m ∈ prepare_map_data [⟨"Foo", [(2024, none)]⟩] 2024, m.deaths.isSome = true) ∧
    zoneTotal ([⟨"Karnataka", [(2024, some 7)]⟩] ++ ⟨"Foo", [(2024, none)]⟩ ::
        ([] : List Row)) south_states 2024 =
      zoneTotal ([⟨"Karnataka", [(2024, some 7)]⟩] ++ ([] : List Row)) south_states 2024 :=
  missing_value_excluded [⟨"Foo", [(2024, none)]⟩] [⟨"Karnataka", [(2024, some 7)]⟩]
    [] ⟨"Foo", [(2024, none)]⟩ 2024 south_states (by decide)

/-- Filtering the base map data by "original name does not contain Jammu" is
the same as dropping the matching input rows before building the records. -/
lemma base_filter_not_jammu (rows : List Row) (y : Nat) :
    (base_map_data rows y).filter (fun m => !containsJammu m.original_state) =
      (rows.filter (fun s => !containsJammu s.state)).map
        (fun s => (⟨canonicalize s.state, s.state, s.value y, y⟩ : MapRecord)) := by
  unfold base_map_data
  rw [List.filter_map]
  rfl

/-- Counterexample to C1 as stated: with two input records whose names contain
"Jammu" (values 500 and 700 for 2024), the second record matches the pattern,
yet the normalizer's output contains no record carrying its value 700 — the
replicated records do not carry "the same value as the source record" for
every matching record. -/
theorem split_replication_counterexample :
    containsJammu "Jammu and Kashmir" = true ∧
    Row.value ⟨"Jammu and Kashmir", [(2024, some 700)]⟩ 2024 = some 700 ∧
    ∀ m ∈ prepare_map_data
        [⟨"Jammu & Kashmir", [(2024, some 500)]⟩,
         ⟨"Jammu and Kashmir", [(2024, some 700)]⟩] 2024,
      m.deaths ≠ some 700 := by
  decide

/-- C1 (amended): when the first input record whose region name contains
"Jammu" (case-insensitively) has a present value for the requested period,
the records of the output whose original name matches the pattern are exactly
the two replicated records, one per target id ("Jammu & Kashmir" and
"Ladakh"), each carrying that first record's value and the requested period;
no matching record survives under its own identity. -/
theorem split_first_match_replicated (rows : List Row) (y : Nat) (r : Row)
    (rest : List Row)
    (hjk : rows.filter (fun s => containsJammu s.state) = r :: rest)
    (hv : (r.value y).isSome = true) :
    (prepare_map_data rows y).filter (fun m => containsJammu m.original_state) =
      jkPair (r.value y) y ∧
    ∀ m ∈ prepare_map_data rows y, containsJammu m.original_state = true →
      m.deaths = r.value y ∧ m.year = y := by
  obtain ⟨d, hd⟩ := Option.isSome_iff_exists.mp hv
  have hmain : (prepare_map_data rows y).filter
      (fun m => containsJammu m.original_state) = jkPair (r.value y) y := by
    unfold prepare_map_data
    rw [hjk]
    simp only [splitJK]
    rw [List.filter_append, List.filter_append]
    have h1 : ((((base_map_data rows y).filter
        (fun m => !containsJammu m.original_state)).filter
        (fun m => m.deaths.isSome)).filter
        (fun m => containsJammu m.original_state)) = [] := by
      rw [List.filter_eq_nil_iff]
      intro m hm
      have h2 := (List.mem_filter.mp (List.mem_filter.mp hm).1).2
      simp only [Bool.not_eq_true'] at h2
      simp [h2]
    have c1 : containsJammu "Jammu & Kashmir" = true := by decide
    have c2 : containsJammu "Jammu & Kashmir (Ladakh area)" = true := by decide
    have hpair : (((jkPair (r.value y) y).filter
        (fun m => m.deaths.isSome)).filter
        (fun m => containsJammu m.original_state)) = jkPair (r.value y) y := by
      rw [hd]
      simp [jkPair, c1, c2]
    rw [h1, hpair, List.nil_append]
  refine ⟨hmain, fun m hm hJ => ?_⟩
  have hmem : m ∈ jkPair (r.value y) y := hmain ▸ List.mem_filter.mpr ⟨hm, hJ⟩
  simp only [jkPair, List.mem_cons, List.not_mem_nil, or_false] at hmem
  rcases hmem with rfl | rfl
  · exact ⟨rfl, rfl⟩
  · exact ⟨rfl, rfl⟩

/-- Witness for the amended C1: a single "Jammu & Kashmir" record with value
500 for 2024 yields exactly the two replicated records with value 500. -/
theorem split_first_match_replicated_witness :
    (prepare_map_data [⟨"Jammu & Kashmir", [(2024, some 500)]⟩] 2024).filter
        (fun m => containsJammu m.original_state) =
      jkPair (Row.value ⟨"Jammu & Kashmir", [(2024, some 500)]⟩ 2024) 2024 :=
  (split_first_match_replicated [⟨"Jammu & Kashmir", [(2024, some 500)]⟩] 2024
    ⟨"Jammu & Kashmir", [(2024, some 500)]⟩ [] (by decide) (by decide)).1

/-- C9: when two or more input records match the "Jammu" pattern, all of them
are removed from the output, a single replicated pair is appended, and that
pair carries the value of the first matching record — the output is exactly
the records of the non-matching rows plus the pair, so the values of the
other matching records are silently discarded. -/
theorem multi_match_first_value_wins (rows : List Row) (y : Nat) (r₁ r₂ : Row)
    (rest : List Row)
    (hjk : rows.filter (fun s => containsJammu s.state) = r₁ :: r₂ :: rest) :
    prepare_map_data rows y =
      ((rows.filter (fun s => !containsJammu s.state)).map
        (fun s => (⟨canonicalize s.state, s.state, s.value y, y⟩ : MapRecord))).filter
        (fun m => m.deaths.isSome) ++
      (jkPair (r₁.value y) y).filter (fun m => m.deaths.isSome) := by
  unfold prepare_map_data
  rw [hjk]
  simp only [splitJK]
  rw [List.filter_append, base_filter_not_jammu]

/-- Witness for C9: with matching records of values 500 and 700, the output is
the pair carrying 500. -/
theorem multi_match_first_value_wins_witness :
    prepare_map_data [⟨"Jammu & Kashmir", [(2024, some 500)]⟩,
        ⟨"Jammu and Kashmir", [(2024, some 700)]⟩] 2024 =
      ((([⟨"Jammu & Kashmir", [(2024, some 500)]⟩,
          ⟨"Jammu and Kashmir", [(2024, some 700)]⟩] : List Row).filter
          (fun s => !containsJammu s.state)).map
        (fun s => (⟨canonicalize s.state, s.state, s.value 2024, 2024⟩ : MapRecord))).filter
        (fun m => m.deaths.isSome) ++
      (jkPair (Row.value ⟨"Jammu & Kashmir", [(2024, some 500)]⟩ 2024) 2024).filter
        (fun m => m.deaths.isSome) :=
  multi_match_first_value_wins
    [⟨"Jammu & Kashmir", [(2024, some 500)]⟩, ⟨"Jammu and Kashmir", [(2024, some 700)]⟩]
    2024 ⟨"Jammu & Kashmir", [(2024, some 500)]⟩
    ⟨"Jammu and Kashmir", [(2024, some 700)]⟩ [] (by decide)

/-- Dropping a whitespace prefix: `dropWhile isWS` ignores an all-whitespace
prefix. -/
lemma dropWhile_ws_append (p t : List Char) (hp : ∀ c ∈ p, isWS c = true) :
    (p ++ t).dropWhile isWS = t.dropWhile isWS := by
  induction p with
  | nil => rfl
  | cons c p ih =>
    rw [List.cons_append, List.dropWhile_cons, if_pos (hp c (List.mem_cons_self c p))]
    exact ih (fun d hd => hp d (List.mem_cons_of_mem c hd))

/-- Stripping is insensitive to surrounding whitespace: padding a character
list with whitespace on either side does not change its stripped form. -/
lemma stripChars_pad (s ws₁ ws₂ : List Char) (h₁ : ∀ c ∈ ws₁, isWS c = true)
    (h₂ : ∀ c ∈ ws₂, isWS c = true) :
    stripChars (ws₁ ++ s ++ ws₂) = stripChars s := by
  unfold stripChars
  rw [List.append_assoc, dropWhile_ws_append ws₁ (s ++ ws₂) h₁]
  congr 1
  induction s with
  | nil =>
    have hws : ws₂.dropWhile isWS = [] := by
      have := dropWhile_ws_append ws₂ [] h₂
      simpa using this
    simp [hws]
  | cons c s ih =>
    by_cases hc : isWS c = true
    · rw [List.cons_append, List.dropWhile_cons, List.dropWhile_cons, if_pos hc,
        if_pos hc]
      exact ih
    · rw [List.cons_append, List.dropWhile_cons, List.dropWhile_cons, if_neg hc,
        if_neg hc, List.reverse_cons, List.reverse_cons, List.reverse_append,
        List.append_assoc,
        dropWhile_ws_append ws₂.reverse (s.reverse ++ [c])
          (fun d hd => h₂ d (List.mem_reverse.mp hd))]

/-- C7: the region name is stripped of surrounding whitespace before the
alias-table lookup, so a name padded with whitespace on either side resolves
to the same canonical id as the unpadded name. -/
theorem strip_before_lookup (s : String) (ws₁ ws₂ : List Char)
    (h₁ : ∀ c ∈ ws₁, isWS c = true) (h₂ : ∀ c ∈ ws₂, isWS c = true) :
    normalizeName ⟨ws₁ ++ s.data ++ ws₂⟩ = normalizeName s := by
  have h : stripChars (String.mk (ws₁ ++ s.data ++ ws₂)).data = stripChars s.data :=
    stripChars_pad s.data ws₁ ws₂ h₁ h₂
  unfold normalizeName clean_state
  rw [h]

/-- Witness for C7: " Orissa " (wrapped in spaces) resolves exactly as
"Orissa" does. -/
theorem strip_before_lookup_witness :
    normalizeName ⟨[' '] ++ "Orissa".data ++ [' ']⟩ = normalizeName "Orissa" :=
  strip_before_lookup "Orissa" [' '] [' '] (by decide) (by decide)

/-- A key that does not occur in the association list looks up to `none`. -/
lemma lookup_none_of_key_not_mem (vals : List (Nat × Option Int)) (y : Nat)
    (h : y ∉ vals.map Prod.fst) : vals.lookup y = none := by
  induction vals with
  | nil => rfl
  | cons p vals ih =>
    obtain ⟨k, v⟩ := p
    simp only [List.map_cons, List.mem_cons] at h
    push_neg at h
    have hk : (y == k) = false := by simpa using h.1
    rw [List.lookup_cons, hk]
    exact ih h.2

/-- Long-format sum over one row when the row's state is in the member set:
with duplicate-free year columns it is exactly the row's value at the
requested year (0 when absent). -/
lemma row_long_sum_aux (st : String) (members : List String) (y : Nat)
    (hst : members.contains st = true) :
    ∀ vals : List (Nat × Option Int), (vals.map Prod.fst).Nodup →
      (((vals.filterMap (fun p => p.2.map (fun v => LongRecord.mk st p.1 v))).filter
          (fun q => members.contains q.region && q.period == y)).map
        (fun q => q.value)).sum = ((vals.lookup y).join).getD 0 := by
  intro vals
  induction vals with
  | nil => intro _; simp
  | cons p vals ih =>
    intro hnd
    obtain ⟨k, ov⟩ := p
    simp only [List.map_cons, List.nodup_cons] at hnd
    obtain ⟨hk, hnd'⟩ := hnd
    by_cases hky : k = y
    · subst hky
      have htail : vals.lookup k = none := lookup_none_of_key_not_mem vals k hk
      have htail0 : ((((vals.filterMap
          (fun p => p.2.map (fun v => LongRecord.mk st p.1 v))).filter
          (fun q => members.contains q.region && q.period == k)).map
          (fun q => q.value)).sum) = 0 := by
        have h1 := ih hnd'
        rw [htail] at h1
        exact h1
      have hlk : List.lookup k ((k, ov) :: vals) = some ov := by
        simp [List.lookup_cons]
      rw [hlk]
      cases ov with
      | none =>
        simp only [List.filterMap_cons, Option.map_none']
        exact htail0
      | some v =>
        simp only [List.filterMap_cons, Option.map_some']
        have hst' : st ∈ members := by simpa using hst
        rw [List.filter_cons_of_pos (by simp [hst']), List.map_cons,
          List.sum_cons, htail0, add_zero]
        rfl
    · cases ov with
      | none =>
        simp only [List.filterMap_cons, Option.map_none']
        have hlk' : List.lookup y (((k : Nat), (none : Option Int)) :: vals) =
            List.lookup y vals := by
          have h2 : (y == k) = false := by simpa using fun h => hky h.symm
          simp [List.lookup_cons, h2]
        rw [hlk']
        exact ih hnd'
      | some v =>
        simp only [List.filterMap_cons, Option.map_some']
        have hky' : (k == y) = false := by simpa using hky
        rw [List.filter_cons_of_neg (by simp [hky'])]
        have hlk' : List.lookup y (((k : Nat), (some v : Option Int)) :: vals) =
            List.lookup y vals := by
          have h2 : (y == k) = false := by simpa using fun h => hky h.symm
          simp [List.lookup_cons, h2]
        rw [hlk']
        exact ih hnd'

/-- Long-format sum over one row: the row contributes its value at the
requested year when its state is a member, and nothing otherwise. -/
lemma row_long_sum (r : Row) (members : List String) (y : Nat)
    (hnd : (r.values.map Prod.fst).Nodup) :
    zoneTotalSpec r.toLong members y =
      if members.contains r.state = true then (r.value y).getD 0 else 0 := by
  obtain ⟨st, vals⟩ := r
  by_cases hst : members.contains st = true
  · rw [if_pos hst]
    exact row_long_sum_aux st members y hst vals hnd
  · rw [if_neg hst]
    have hnil : (Row.toLong ⟨st, vals⟩).filter
        (fun q => members.contains q.region && q.period == y) = [] := by
      rw [List.filter_eq_nil_iff]
      intro q hq
      obtain ⟨p, _, hq'⟩ := List.mem_filterMap.mp hq
      obtain ⟨v, _, rfl⟩ := Option.map_eq_some'.mp hq'
      simp only [Bool.and_eq_true, not_and]
      intro hmem
      exact absurd hmem hst
    unfold zoneTotalSpec
    rw [hnil]
    rfl

/-- Peeling one row off a zone total. -/
lemma zoneTotal_cons (r : Row) (rs : List Row) (members : List String) (y : Nat) :
    zoneTotal (r :: rs) members y =
      (if members.contains r.state = true then (r.value y).getD 0 else 0) +
        zoneTotal rs members y := by
  unfold zoneTotal
  rw [List.filter_cons]
  by_cases hc : members.contains r.state = true
  · rw [if_pos hc, if_pos hc, List.filterMap_cons]
    cases hv : r.value y with
    | none => simp [hv]
    | some v => simp [hv]
  · rw [if_neg hc, if_neg hc, zero_add]

/-- The spec-level zone total is additive over record concatenation. -/
lemma zoneTotalSpec_append (A B : List LongRecord) (members : List String) (y : Nat) :
    zoneTotalSpec (A ++ B) members y =
      zoneTotalSpec A members y + zoneTotalSpec B members y := by
  unfold zoneTotalSpec
  rw [List.filter_append, List.map_append, List.sum_append]

/-- The code's wide-format zone total coincides with the spec-level sum over
the long-format records. -/
lemma zoneTotal_eq_spec (rows : List Row) (members : List String) (y : Nat)
    (hnd : ∀ r ∈ rows, (r.values.map Prod.fst).Nodup) :
    zoneTotal rows members y = zoneTotalSpec (toLong rows) members y := by
  induction rows with
  | nil => rfl
  | cons r rs ih =>
    rw [zoneTotal_cons]
    unfold toLong
    rw [List.flatMap_cons, zoneTotalSpec_append,
      row_long_sum r members y (hnd r (List.mem_cons_self r rs))]
    have := ih (fun s hs => hnd s (List.mem_cons_of_mem r hs))
    unfold toLong at this
    rw [this]

/-- C4: for every zone of the zone table, `create_regional_analysis` reports
the zone's total, and (with duplicate-free year columns) that total is the
sum of the values of exactly those long-format records whose region is in the
zone's member set and whose period equals the requested one; records of other
periods do not affect it, and a zone no row of the table belongs to totals 0
rather than failing. -/
theorem regional_totals_correct (rows : List Row) (y : Nat)
    (hnd : ∀ r ∈ rows, (r.values.map Prod.fst).Nodup) :
    (∀ z ∈ regions, ((z.1, zoneTotal rows z.2 y) : String × Int) ∈
      create_regional_analysis rows y) ∧
    (∀ members : List String,
      zoneTotal rows members y = zoneTotalSpec (toLong rows) members y) ∧
    (∀ members : List String, (∀ r ∈ rows, members.contains r.state = false) →
      zoneTotal rows members y = 0) := by
  refine ⟨fun z hz => List.mem_map_of_mem _ hz,
    fun members => zoneTotal_eq_spec rows members y hnd,
    fun members hnone => ?_⟩
  unfold zoneTotal
  have : rows.filter (fun r => members.contains r.state) = [] := by
    rw [List.filter_eq_nil_iff]
    intro r hr
    simpa using hnone r hr
  rw [this]
  rfl

/-- Witness for C4 at the spec's example: Karnataka 100 and Kerala 200 in
2020 (Karnataka also 50 in 2019) give the South-India member set the total
300, computed identically by the code and the spec-level sum. -/
theorem regional_totals_correct_witness :
    zoneTotal [⟨"Karnataka", [(2020, some 100), (2019, some 50)]⟩,
        ⟨"Kerala", [(2020, some 200)]⟩] south_states 2020 =
      zoneTotalSpec (toLong [⟨"Karnataka", [(2020, some 100), (2019, some 50)]⟩,
        ⟨"Kerala", [(2020, some 200)]⟩]) south_states 2020 :=
  (regional_totals_correct [⟨"Karnataka", [(2020, some 100), (2019, some 50)]⟩,
      ⟨"Kerala", [(2020, some 200)]⟩] 2020 (by decide)).2.1 south_states

end CancerDashboard
